import Mathlib

/-!
# Verification of the MLAS rule-evaluation engine

Shallow embedding of the core calculators of the `sc2-mlas-suite`
(revenue sharing, multi-level attribution, abuse detection, dynamic
pricing) from `src/services/RevenueSharingService.ts` and
`src/services/AbuseDetectionService.ts`, together with theorems about
their behaviour.

Conventions of the embedding:
* JavaScript runtime values appearing in rule conditions and contexts
  are modelled by the inductive type `JSVal`; a missing object key reads
  as `JSVal.undef`, and `Number`/`String` coercions are modelled by
  `jsToNumber` (with `none` standing for `NaN`) and `jsToString`.
* `decimal.js` quantities are modelled by `Dec`, an explicit
  numerator/denominator pair; every arithmetic operation (`plus`,
  `minus`, `times`, `dividedBy`) rounds its result to the library's
  default precision of 20 significant digits with the default
  ROUND_HALF_UP mode, via `Dec.round`. Comparisons are exact, as in the
  library. `Dec.toRat` reads off the represented rational.
* `Date` timestamps are modelled as integers (epoch milliseconds);
  "now" is passed explicitly.
* In-memory `Map`s are modelled as association lists in insertion
  order; generated UUIDs are passed explicitly.
-/

namespace MLAS

/-! ## JavaScript values -/

/-- A JavaScript runtime value, as stored in rule conditions and in the
`Record<string, unknown>` context bags. `undef` is `undefined`. `NaN` is
not a constructor: numeric coercion returns `Option ℚ` with `none` for
`NaN`. -/
inductive JSVal where
  | undef : JSVal
  | null : JSVal
  | num : ℚ → JSVal
  | str : String → JSVal
  | bool : Bool → JSVal
  | arr : List JSVal → JSVal

/-- A context bag (`Record<string, unknown>`): an association list of
distinct keys, in insertion order. -/
abbrev Ctx := List (String × JSVal)

/-- Reading `data[field]` on a JS object: a missing key yields
`undefined`. -/
def ctxGet (data : Ctx) (key : String) : JSVal :=
  (data.lookup key).getD JSVal.undef

/-- JavaScript strict equality `===` on the modelled values. Arrays
compare by reference, so two array values built independently are never
strictly equal; the same-reference case is not representable here and
never arises in the claims. -/
def jsEq : JSVal → JSVal → Bool
  | JSVal.undef, JSVal.undef => true
  | JSVal.null, JSVal.null => true
  | JSVal.num a, JSVal.num b => a == b
  | JSVal.str a, JSVal.str b => a == b
  | JSVal.bool a, JSVal.bool b => a == b
  | _, _ => false

/-- JavaScript truthiness of a modelled value. -/
def jsTruthy : JSVal → Bool
  | JSVal.undef => false
  | JSVal.null => false
  | JSVal.num q => q != 0
  | JSVal.str s => s != ""
  | JSVal.bool b => b
  | JSVal.arr _ => true

/-- Models JS `Number(string)` coercion for plain decimal numerals:
optional sign, digits, optional fractional part; the empty (trimmed)
string coerces to 0; other forms coerce to `NaN` (`none`). Exponent and
hex notation are not used anywhere in this codebase. -/
def strToNum (s : String) : Option ℚ :=
  let t := ((s.toList.dropWhile Char.isWhitespace).reverse.dropWhile Char.isWhitespace).reverse
  if t = [] then some 0
  else
    let (sgn, body) : ℤ × List Char :=
      match t with
      | '-' :: rest => (-1, rest)
      | '+' :: rest => (1, rest)
      | _ => (1, t)
    let digitsVal (u : List Char) : Option ℕ :=
      if u ≠ [] ∧ u.all Char.isDigit then
        some (u.foldl (fun acc c => 10 * acc + (c.toNat - 48)) 0)
      else none
    match body.splitOn '.' with
    | [intPart] =>
        match digitsVal intPart with
        | some n => some (Rat.divInt (sgn * n) 1)
        | none => none
    | [intPart, fracPart] =>
        match digitsVal intPart, digitsVal fracPart with
        | some n, some f =>
            some (Rat.divInt (sgn * (n * 10 ^ fracPart.length + f)) (10 ^ fracPart.length))
        | _, _ => none
    | _ => none

/-- Decimal rendering of a rational, modelling JS number-to-string for
the terminating decimals that arise here; non-terminating rationals
(which do not correspond to any JS float) fall back to fraction
notation. Either way the result always contains a digit. -/
def ratToString (q : ℚ) : String :=
  let sgn := if q < 0 then "-" else ""
  let n := q.num.natAbs
  let d := q.den
  if d = 1 then sgn ++ toString n
  else
    -- strip factors of 2 and 5 from the denominator
    let rec strip (fuel : ℕ) (m : ℕ) (p : ℕ) (k : ℕ) : ℕ × ℕ :=
      match fuel with
      | 0 => (m, k)
      | fuel + 1 => if m % p = 0 ∧ m ≥ p then strip fuel (m / p) p (k + 1) else (m, k)
    let (d2, a) := strip d d 2 0
    let (d25, b) := strip d2 d2 5 0
    if d25 = 1 then
      let k := max a b
      let scaled := n * 2 ^ (k - a) * 5 ^ (k - b)
      let intPart := scaled / 10 ^ k
      let frac := scaled % 10 ^ k
      let fracStr := String.mk (List.replicate (k - (toString frac).length) '0') ++ toString frac
      -- JS trims trailing zeros of the fractional part
      let fracTrim := String.mk (fracStr.toList.reverse.dropWhile (· = '0')).reverse
      sgn ++ toString intPart ++ "." ++ fracTrim
    else sgn ++ toString n ++ "/" ++ toString d

mutual

/-- Models JS `String(x)` coercion. Numbers print as decimal numerals
(see `ratToString`); arrays join their elements with `","`, rendering
`null`/`undefined` elements as the empty string, as
`Array.prototype.toString` does. -/
def jsToString : JSVal → String
  | JSVal.undef => "undefined"
  | JSVal.null => "null"
  | JSVal.num q => ratToString q
  | JSVal.str s => s
  | JSVal.bool b => if b then "true" else "false"
  | JSVal.arr xs => String.intercalate "," (jsToStringElems xs)

/-- Element strings for array stringification: `null` and `undefined`
become empty strings inside an array. -/
def jsToStringElems : List JSVal → List String
  | [] => []
  | JSVal.undef :: xs => "" :: jsToStringElems xs
  | JSVal.null :: xs => "" :: jsToStringElems xs
  | x :: xs => jsToString x :: jsToStringElems xs

end

/-- Substring test on character lists: `charsContains hay needle` is
true iff `needle` occurs contiguously in `hay`. Models JS
`String.prototype.includes`. -/
def charsContains (hay needle : List Char) : Bool :=
  if needle.isPrefixOf hay then true
  else
    match hay with
    | [] => false
    | _ :: t => charsContains t needle

/-- JS `Number(x)` coercion; `none` models `NaN`. Arrays coerce through
their string form, as in JS. -/
def jsToNumber : JSVal → Option ℚ
  | JSVal.undef => none
  | JSVal.null => some 0
  | JSVal.num q => some q
  | JSVal.str s => strToNum s
  | JSVal.bool b => some (if b then 1 else 0)
  | JSVal.arr xs => strToNum (jsToString (JSVal.arr xs))

/-- The NaN-aware `<` on coerced numbers: any comparison with `NaN` is
false. -/
def numLt : Option ℚ → Option ℚ → Bool
  | some a, some b => a < b
  | _, _ => false

/-- The NaN-aware `≤` on coerced numbers: any comparison with `NaN` is
false. -/
def numLe : Option ℚ → Option ℚ → Bool
  | some a, some b => a ≤ b
  | _, _ => false

/-! ## decimal.js arithmetic

`decimal.js` with its default configuration rounds the result of every
arithmetic operation to 20 significant digits using ROUND_HALF_UP
(ties away from zero), and compares values exactly. `Dec` carries an
unreduced fraction; `Dec.round` implements exactly that rounding. -/

/-- A `decimal.js` value, represented as the fraction `num / den`
(`den` is always positive; the representation is not required to be
reduced). Every library operation rounds its result through
`Dec.round`, so values produced by the modelled code are of the shape
`± m / 10^k`, mirroring the library's digits-and-exponent
representation. -/
structure Dec where
  num : ℤ
  den : ℕ
deriving DecidableEq

/-- The rational number a `Dec` stands for. -/
def Dec.toRat (d : Dec) : ℚ := Rat.divInt d.num (d.den : ℤ)

/-- Models `new Decimal(n)` for an integer literal. -/
def Dec.ofInt (n : ℤ) : Dec := ⟨n, 1⟩

/-- A decimal literal `m × 10^(-k)`, e.g. `Dec.scaled 5 1` is `0.5`. -/
def Dec.scaled (m : ℤ) (k : ℕ) : Dec := ⟨m, 10 ^ k⟩

/-- Number of decimal digits of a natural number (0 for 0), by
fuel-bounded recursion so that it reduces in the kernel. -/
def digitCountAux : ℕ → ℕ → ℕ
  | 0, _ => 0
  | fuel + 1, n => if n = 0 then 0 else digitCountAux fuel (n / 10) + 1

/-- Number of decimal digits of a natural number (0 for 0). -/
def digitCount (n : ℕ) : ℕ := digitCountAux (n + 1) n

/-- Round a `Dec` to 20 significant decimal digits, ties away from
zero: the default precision and rounding mode of `decimal.js`, applied
by the library to the result of every `plus`/`minus`/`times`/`dividedBy`. -/
def Dec.round (d : Dec) : Dec :=
  if d.num = 0 then ⟨0, 1⟩
  else
    let a := d.num.natAbs
    let b := d.den
    let c : ℤ := (digitCount a : ℤ) - (digitCount b : ℤ)
    -- e = ⌊log10 |d|⌋ is c or c - 1: test whether 10^c ≤ a / b
    let atLeastPowC : Bool :=
      if 0 ≤ c then b * 10 ^ c.toNat ≤ a else a * 10 ^ (-c).toNat ≥ b
    let e : ℤ := if atLeastPowC then c else c - 1
    let k : ℤ := 19 - e
    -- m = round-half-up of (a/b)·10^k; 10^19 ≤ m ≤ 10^20
    let m : ℕ :=
      if 0 ≤ k then (2 * a * 10 ^ k.toNat + b) / (2 * b)
      else (2 * a + b * 10 ^ (-k).toNat) / (2 * (b * 10 ^ (-k).toNat))
    let sgn : ℤ := if d.num < 0 then -1 else 1
    if 0 ≤ k then ⟨sgn * m, 10 ^ k.toNat⟩ else ⟨sgn * (m * 10 ^ (-k).toNat), 1⟩

/-- Models `decimal.js` `plus`. -/
def Dec.add (x y : Dec) : Dec :=
  Dec.round ⟨x.num * (y.den : ℤ) + y.num * (x.den : ℤ), x.den * y.den⟩

/-- Models `decimal.js` `minus`. -/
def Dec.sub (x y : Dec) : Dec :=
  Dec.round ⟨x.num * (y.den : ℤ) - y.num * (x.den : ℤ), x.den * y.den⟩

/-- Models `decimal.js` `times`. -/
def Dec.mul (x y : Dec) : Dec :=
  Dec.round ⟨x.num * y.num, x.den * y.den⟩

/-- Models `decimal.js` `dividedBy`. Division by zero yields `Infinity` in the
library; it is unreachable in the modelled code (every division is by a
nonzero constant or a guarded nonzero length) and is mapped to 0 here. -/
def Dec.div (x y : Dec) : Dec :=
  if y.num = 0 then ⟨0, 1⟩
  else
    Dec.round ⟨(if y.num < 0 then -(x.num * (y.den : ℤ)) else x.num * (y.den : ℤ)),
      x.den * y.num.natAbs⟩

/-- Models `decimal.js` `lessThan` (exact comparison). -/
def Dec.lt (x y : Dec) : Bool := x.num * (y.den : ℤ) < y.num * (x.den : ℤ)

/-- Models `decimal.js` `greaterThan` (exact comparison). -/
def Dec.gt (x y : Dec) : Bool := Dec.lt y x

/-- Models `decimal.js` `lessThanOrEqualTo` (exact comparison). -/
def Dec.le (x y : Dec) : Bool := x.num * (y.den : ℤ) ≤ y.num * (x.den : ℤ)

/-- Models `decimal.js` `greaterThanOrEqualTo` (exact comparison). -/
def Dec.ge (x y : Dec) : Bool := Dec.le y x

/-- Models `new Decimal(x as number)` on a context value: in the source
this constructor is only reached with numeric values (it throws on
non-numeric input, and NaN has no representation here); non-numeric
values are mapped to 0, a case no claim exercises. -/
def decOfJS (v : JSVal) : Dec :=
  match jsToNumber v with
  | some q => ⟨q.num, q.den⟩
  | none => ⟨0, 1⟩

/-! ## Revenue sharing (`RevenueSharingService`) -/

/-- Models `RevenueModelType` from `types/index.ts`. -/
inductive RevenueModelType where
  | FLAT_RATE
  | PERCENTAGE
  | TIERED
  | PERFORMANCE_BASED
  | HYBRID

/-- Models `RevenueCondition` from `types/index.ts`. The operator is kept as a
string: the evaluator's `default` branch returns false for anything
outside the documented set. -/
structure RevenueCondition where
  field : String
  operator : String
  value : JSVal

/-- Models `TierLevel` from `types/index.ts`. -/
structure TierLevel where
  threshold : Dec
  rate : Dec

/-- Models `BonusRate` from `types/index.ts`. -/
structure BonusRate where
  threshold : Dec
  rate : Dec

/-- Models `RevenueSharingRule` from `types/index.ts` (fields the calculator
reads). The optional lists `conditions`, `tierLevels`, `bonusRates` are
modelled as plain lists: everywhere they are read, an absent list and an
empty list behave identically. -/
structure RevenueSharingRule where
  id : String
  name : String
  modelType : RevenueModelType
  baseRate : Dec
  conditions : List RevenueCondition
  tierLevels : List TierLevel
  bonusRates : List BonusRate
  capAmount : Option Dec
  minAmount : Option Dec

/-- Models `RevenueSharingService.conditionMet`: evaluate one condition against
the context. A missing key reads as `undefined`. -/
def conditionMet (condition : RevenueCondition) (data : Ctx) : Bool :=
  let value := ctxGet data condition.field
  match condition.operator with
  | "eq" => jsEq value condition.value
  | "ne" => !jsEq value condition.value
  | "gt" => numLt (jsToNumber condition.value) (jsToNumber value)
  | "gte" => numLe (jsToNumber condition.value) (jsToNumber value)
  | "lt" => numLt (jsToNumber value) (jsToNumber condition.value)
  | "lte" => numLe (jsToNumber value) (jsToNumber condition.value)
  | "in" =>
      match condition.value with
      | JSVal.arr xs => xs.any (fun x => jsEq x value)
      | _ => false
  | "contains" => charsContains (jsToString value).toList (jsToString condition.value).toList
  | _ => false

/-- Models `RevenueSharingService.calculateTieredRevenue`: the rate of the last
tier whose threshold ≤ amount wins; `baseRate` if none qualifies or the
tier list is empty/absent. -/
def calculateTieredRevenue (amount : Dec) (rule : RevenueSharingRule) : Dec :=
  if rule.tierLevels.length = 0 then
    (amount.mul rule.baseRate).div (Dec.ofInt 100)
  else
    let applicableRate := rule.tierLevels.foldl
      (fun applicableRate tier => if amount.ge tier.threshold then tier.rate else applicableRate)
      rule.baseRate
    (amount.mul applicableRate).div (Dec.ofInt 100)

/-- Models `RevenueSharingService.calculatePerformanceRevenue`. The
`context?.performanceScore` truthiness test means a score of 0 is
treated as absent, as in the source. -/
def calculatePerformanceRevenue (amount : Dec) (rule : RevenueSharingRule)
    (context : Option Ctx) : Dec :=
  let psVal := match context with
    | some ctx => ctxGet ctx "performanceScore"
    | none => JSVal.undef
  let rate :=
    if jsTruthy psVal then (rule.baseRate.mul (decOfJS psVal)).div (Dec.ofInt 100)
    else rule.baseRate
  let rate := rule.bonusRates.foldl
    (fun rate bonus => if amount.ge bonus.threshold then bonus.rate else rate) rate
  (amount.mul rate).div (Dec.ofInt 100)

/-- Models `RevenueSharingService.calculateHybridRevenue`. -/
def calculateHybridRevenue (amount : Dec) (rule : RevenueSharingRule)
    (context : Option Ctx) : Dec :=
  let revenue := (amount.mul rule.baseRate).div (Dec.ofInt 100)
  let revenue := rule.tierLevels.foldl
    (fun revenue tier =>
      if amount.ge tier.threshold then (amount.mul tier.rate).div (Dec.ofInt 100) else revenue)
    revenue
  let psVal := match context with
    | some ctx => ctxGet ctx "performanceScore"
    | none => JSVal.undef
  if jsTruthy psVal then
    let adjustment := (revenue.mul (decOfJS psVal)).div (Dec.ofInt 100)
    revenue.add adjustment
  else revenue

/-- The condition gate at the top of
`RevenueSharingService.calculateRevenue`: with no context supplied
(`context` omitted), or with an empty/absent condition list, the rule
always applies; otherwise every condition must hold. -/
def conditionsGate (rule : RevenueSharingRule) (context : Option Ctx) : Bool :=
  match context with
  | none => true
  | some ctx =>
      if rule.conditions.length > 0 then
        rule.conditions.all (fun cond => conditionMet cond ctx)
      else true

/-- The `switch (rule.modelType)` block of
`RevenueSharingService.calculateRevenue`: the raw model result before
cap and floor. -/
def modelRevenue (rule : RevenueSharingRule) (amount : Dec) (context : Option Ctx) : Dec :=
  match rule.modelType with
  | RevenueModelType.FLAT_RATE => rule.baseRate
  | RevenueModelType.PERCENTAGE => (amount.mul rule.baseRate).div (Dec.ofInt 100)
  | RevenueModelType.TIERED => calculateTieredRevenue amount rule
  | RevenueModelType.PERFORMANCE_BASED => calculatePerformanceRevenue amount rule context
  | RevenueModelType.HYBRID => calculateHybridRevenue amount rule context

/-- Models `RevenueSharingService.calculateRevenue`. The `context` parameter is
optional in the source (`context?`); `none` models a call without it, in
which case the condition gate is skipped entirely. -/
def calculateRevenue (rule : RevenueSharingRule) (amount : Dec) (context : Option Ctx) : Dec :=
  if !conditionsGate rule context then Dec.ofInt 0
  else
    let revenue := modelRevenue rule amount context
    let revenue :=
      match rule.capAmount with
      | some cap => if revenue.gt cap then cap else revenue
      | none => revenue
    let revenue :=
      match rule.minAmount with
      | some minAmount => if revenue.lt minAmount then minAmount else revenue
      | none => revenue
    revenue

/-! ## Attribution (`AttributionService`) -/

/-- Models `AttributionType` from `types/index.ts`. -/
inductive AttributionType where
  | DIRECT
  | REFERRAL
  | MULTI_TOUCH
  | FIRST_CLICK
  | LAST_CLICK
  | LINEAR

/-- Models `Touchpoint` from `types/index.ts`; the weight is computed, not
input. -/
structure Touchpoint where
  affiliateId : String
  timestamp : ℤ
  channel : String
  weight : Dec

/-- Models `AttributionEvent` from `types/index.ts`. -/
structure AttributionEvent where
  id : String
  tenantId : String
  saleId : String
  affiliateId : String
  affiliateChain : List String
  attributionType : AttributionType
  attributionWeight : Dec
  touchpoints : List Touchpoint
  createdAt : ℤ

/-- Index-aware map, modelling `Array.prototype.forEach`'s index
argument. -/
def mapIdxAux (f : ℕ → α → β) (i : ℕ) : List α → List β
  | [] => []
  | x :: xs => f i x :: mapIdxAux f (i + 1) xs

/-- Models `AttributionService.calculateWeights`: distribute credit weights
over the touchpoints according to the attribution model. -/
def calculateWeights (touchpoints : List Touchpoint)
    (attributionType : AttributionType) : List Touchpoint :=
  if touchpoints.length = 0 then []
  else
    let n := touchpoints.length
    match attributionType with
    | AttributionType.DIRECT =>
        mapIdxAux (fun idx tp =>
          { tp with weight := if idx = n - 1 then Dec.ofInt 1 else Dec.ofInt 0 }) 0 touchpoints
    | AttributionType.FIRST_CLICK =>
        mapIdxAux (fun idx tp =>
          { tp with weight := if idx = 0 then Dec.ofInt 1 else Dec.ofInt 0 }) 0 touchpoints
    | AttributionType.LAST_CLICK =>
        mapIdxAux (fun idx tp =>
          { tp with weight := if idx = n - 1 then Dec.ofInt 1 else Dec.ofInt 0 }) 0 touchpoints
    | AttributionType.LINEAR =>
        let equal := (Dec.ofInt 1).div (Dec.ofInt n)
        touchpoints.map (fun tp => { tp with weight := equal })
    | AttributionType.MULTI_TOUCH =>
        -- total = N(N+1)/2, computed in plain JS number arithmetic
        let total := n * (n + 1) / 2
        mapIdxAux (fun idx tp =>
          { tp with weight := (Dec.ofInt (idx + 1)).div (Dec.ofInt total) }) 0 touchpoints
    | AttributionType.REFERRAL =>
        mapIdxAux (fun idx tp =>
          { tp with weight :=
              if idx = 0 ∨ idx = n - 1 then Dec.scaled 5 1 else Dec.ofInt 0 }) 0 touchpoints

/-- Models `AttributionService.calculateAttributionWeight`: the aggregate
weight is the (decimal) sum of the touchpoint weights. -/
def calculateAttributionWeight (touchpoints : List Touchpoint) : Dec :=
  touchpoints.foldl (fun sum tp => sum.add tp.weight) (Dec.ofInt 0)

/-- Models `AttributionService.trackAttribution`: recompute the touchpoint
weights and the aggregate weight, never trusting caller input. The
generated UUID and the creation time are passed explicitly. -/
def trackAttribution (event : AttributionEvent) (newId : String) (now : ℤ) : AttributionEvent :=
  let withId := { event with id := if event.id = "" then newId else event.id, createdAt := now }
  let tps := calculateWeights event.touchpoints event.attributionType
  { withId with touchpoints := tps, attributionWeight := calculateAttributionWeight tps }

/-! ## Abuse detection (`AbuseDetectionService`) -/

/-- Models `AbuseRiskLevel` from `types/index.ts`. -/
inductive AbuseRiskLevel where
  | LOW
  | MEDIUM
  | HIGH
  | CRITICAL
deriving DecidableEq

/-- Models `AbuseAction` from `types/index.ts`. -/
inductive AbuseAction where
  | FLAG
  | HOLD
  | REJECT
  | SUSPEND
  | TERMINATE
deriving DecidableEq

/-- Models `AbuseType` from `types/index.ts`. -/
inductive AbuseType where
  | CLICK_FRAUD
  | COOKIE_STUFFING
  | SELF_DEALING
  | INCENTIVIZED_TRAFFIC
  | BRAND_BIDDING
  | DUPLICATE_ORDERS
  | UNUSUAL_PATTERN
deriving DecidableEq

/-- Models `AbuseCondition` from `types/index.ts`; `timeWindow` is never read
by the evaluator. -/
structure AbuseCondition where
  metric : String
  operator : String
  threshold : JSVal
  timeWindow : Option ℕ

/-- Models `AbuseDetectionRule` from `types/index.ts`. -/
structure AbuseDetectionRule where
  id : String
  tenantId : String
  name : String
  abuseType : AbuseType
  conditions : List AbuseCondition
  riskLevel : AbuseRiskLevel
  action : AbuseAction
  isActive : Bool

/-- Models `AbuseAlert` from `types/index.ts`. The `tenantId`/`saleId` fields
are filled from the raw context values (the `as string` casts in the
source are type-level only). -/
structure AbuseAlert where
  id : String
  tenantId : JSVal
  affiliateId : String
  saleId : JSVal
  abuseType : AbuseType
  riskLevel : AbuseRiskLevel
  detectedRules : List String
  evidence : Ctx
  action : AbuseAction
  status : String
  createdAt : ℤ
  updatedAt : ℤ
  resolvedAt : Option ℤ

/-- Models `AbuseDetectionService.ruleMatches`: every condition of the rule
must hold against the context (`metric` is the field name, `threshold`
the comparison value). -/
def ruleMatches (rule : AbuseDetectionRule) (context : Ctx) : Bool :=
  rule.conditions.all (fun cond =>
    let value := ctxGet context cond.metric
    let threshold := cond.threshold
    match cond.operator with
    | "eq" => jsEq value threshold
    | "ne" => !jsEq value threshold
    | "gt" => numLt (jsToNumber threshold) (jsToNumber value)
    | "gte" => numLe (jsToNumber threshold) (jsToNumber value)
    | "lt" => numLt (jsToNumber value) (jsToNumber threshold)
    | "lte" => numLe (jsToNumber value) (jsToNumber threshold)
    | "in" =>
        match threshold with
        | JSVal.arr xs => xs.any (fun x => jsEq x value)
        | _ => false
    | "contains" => charsContains (jsToString value).toList (jsToString threshold).toList
    | _ => false)

/-- Models `AbuseDetectionService.getRiskLevelValue`. -/
def getRiskLevelValue : AbuseRiskLevel → ℕ
  | AbuseRiskLevel.LOW => 1
  | AbuseRiskLevel.MEDIUM => 2
  | AbuseRiskLevel.HIGH => 3
  | AbuseRiskLevel.CRITICAL => 4

/-- Models `AbuseDetectionService.determineAbuseType`: the abuse type of the
first stored rule (in insertion order) whose id is among the detected
ones. -/
def determineAbuseType (rules : List AbuseDetectionRule) (ruleIds : List String) : AbuseType :=
  match rules.find? (fun r => ruleIds.contains r.id) with
  | some firstRule => firstRule.abuseType
  | none => AbuseType.UNUSUAL_PATTERN

/-- One iteration of the rule loop inside
`AbuseDetectionService.detectAbuse`: a matching rule appends its id to
the detected list and raises the running maximum risk level. -/
def detectScanStep (context : Ctx) (st : List String × AbuseRiskLevel)
    (rule : AbuseDetectionRule) : List String × AbuseRiskLevel :=
  if ruleMatches rule context then
    (st.1 ++ [rule.id],
     if getRiskLevelValue rule.riskLevel > getRiskLevelValue st.2 then rule.riskLevel
     else st.2)
  else st

/-- Models `AbuseDetectionService.detectAbuse`: scan the active rules,
collecting matched rule ids and the maximum risk level; produce an
alert iff at least one rule matched. The generated UUID and the current
time are passed explicitly; `rules` is the service's rule store in
insertion order. -/
def detectAbuse (rules : List AbuseDetectionRule) (affiliateId : String) (context : Ctx)
    (newId : String) (now : ℤ) : Option AbuseAlert :=
  let activeRules := rules.filter (fun r => r.isActive)
  let scan := activeRules.foldl (detectScanStep context) ([], AbuseRiskLevel.LOW)
  let detectedRules := scan.1
  let maxRiskLevel := scan.2
  if detectedRules.length = 0 then none
  else
    let action :=
      if maxRiskLevel = AbuseRiskLevel.HIGH then AbuseAction.HOLD
      else if maxRiskLevel = AbuseRiskLevel.CRITICAL then AbuseAction.SUSPEND
      else AbuseAction.FLAG
    some
      { id := newId
        tenantId := ctxGet context "tenantId"
        affiliateId := affiliateId
        saleId := ctxGet context "saleId"
        abuseType := determineAbuseType rules detectedRules
        riskLevel := maxRiskLevel
        detectedRules := detectedRules
        evidence := context
        action := action
        status := "OPEN"
        createdAt := now
        updatedAt := now
        resolvedAt := none }

/-- Models `AbuseDetectionService.resolveAlert` over the alert store (a map
modelled as an association list): unknown ids fail with the NotFound
error; otherwise the alert's status becomes RESOLVED and the update and
resolution times are stamped. The `resolution` argument is accepted but
never stored, as in the source. -/
def resolveAlert (alerts : List (String × AbuseAlert)) (alertId : String)
    (resolution : String) (now : ℤ) : Except String (List (String × AbuseAlert)) :=
  match alerts.lookup alertId with
  | none => Except.error ("Alert " ++ alertId ++ " not found")
  | some alert =>
      Except.ok (alerts.map (fun kv =>
        if kv.1 = alertId then
          (kv.1, { alert with status := "RESOLVED", updatedAt := now, resolvedAt := some now })
        else kv))

/-! ## Pricing (`PricingService`) -/

/-- Models `PricingCondition` from `types/index.ts`. -/
structure PricingCondition where
  field : String
  operator : String
  value : JSVal

/-- Models `PricingRule` from `types/index.ts`. `adjustmentType` is kept as a
string: the code tests `=== 'ABSOLUTE'` and multiplies for anything
else. -/
structure PricingRule where
  id : String
  name : String
  conditions : List PricingCondition
  priceAdjustment : Dec
  adjustmentType : String
  priority : ℤ

/-- Models `PricingOverride` from `types/index.ts`. -/
structure PricingOverride where
  id : String
  productId : String
  price : Dec
  validFrom : ℤ
  validTo : Option ℤ
deriving DecidableEq

/-- Models `PricingConfiguration` from `types/index.ts` (fields the calculator
reads); an absent `overrides` array behaves like an empty one. -/
structure PricingConfiguration where
  id : String
  tenantId : String
  basePrice : Dec
  rules : List PricingRule
  overrides : List PricingOverride

/-- Models `PricingService.ruleApplies`: every condition of the rule must hold
against the context. -/
def ruleApplies (rule : PricingRule) (context : Ctx) : Bool :=
  rule.conditions.all (fun cond =>
    let value := ctxGet context cond.field
    match cond.operator with
    | "eq" => jsEq value cond.value
    | "ne" => !jsEq value cond.value
    | "gt" => numLt (jsToNumber cond.value) (jsToNumber value)
    | "gte" => numLe (jsToNumber cond.value) (jsToNumber value)
    | "lt" => numLt (jsToNumber value) (jsToNumber cond.value)
    | "lte" => numLe (jsToNumber value) (jsToNumber cond.value)
    | "in" =>
        match cond.value with
        | JSVal.arr xs => xs.any (fun x => jsEq x value)
        | _ => false
    | "contains" => charsContains (jsToString value).toList (jsToString cond.value).toList
    | _ => false)

/-- Insert a rule after all rules of smaller-or-equal priority: one step
of a stable ascending insertion sort. -/
def insertRule (r : PricingRule) : List PricingRule → List PricingRule
  | [] => [r]
  | x :: xs => if x.priority ≤ r.priority then x :: insertRule r xs else r :: x :: xs

/-- Models `[...config.rules].sort((a, b) => a.priority - b.priority)`: a
stable sort by ascending priority (`Array.prototype.sort` is stable). -/
def sortRulesByPriority (rules : List PricingRule) : List PricingRule :=
  rules.foldl (fun acc r => insertRule r acc) []

/-- One pricing rule application: ABSOLUTE adds the adjustment to the
running price; anything else multiplies by (1 + adjustment/100). -/
def applyAdjustment (price : Dec) (rule : PricingRule) : Dec :=
  if rule.adjustmentType = "ABSOLUTE" then price.add rule.priceAdjustment
  else price.mul ((Dec.ofInt 1).add (rule.priceAdjustment.div (Dec.ofInt 100)))

/-- The override test inside `PricingService.calculatePrice`: product
matches and "now" lies in [validFrom, validTo-or-unbounded]. -/
def overrideActive (o : PricingOverride) (context : Ctx) (now : ℤ) : Bool :=
  jsEq (JSVal.str o.productId) (ctxGet context "productId") &&
  decide (o.validFrom ≤ now) &&
  (match o.validTo with
   | none => true
   | some t => decide (now ≤ t))

/-- Models `PricingService.calculatePrice`: the first active override
short-circuits; otherwise the rules are applied to the running price in
ascending priority order. -/
def calculatePrice (config : PricingConfiguration) (context : Ctx) (now : ℤ) : Dec :=
  match config.overrides.find? (fun o => overrideActive o context now) with
  | some o => o.price
  | none =>
      (sortRulesByPriority config.rules).foldl
        (fun price rule => if ruleApplies rule context then applyAdjustment price rule else price)
        config.basePrice

/-! ## Specification-side definitions

Definitions below restate parts of the specification in its own words,
to be compared with the code-derived definitions above. -/

/-- Spec-side characterization of how one condition evaluates when its
field key is absent from the context (the context value is
`undefined`): numeric comparisons never hold; `eq` holds only against
`undefined` itself; `ne` holds against anything else; `in` holds only
for an array containing `undefined`; `contains` holds exactly when the
stringified comparison value occurs in the string "undefined"; unknown
operators never hold. -/
def missingKeyEval (op : String) (v : JSVal) : Bool :=
  match op with
  | "eq" => match v with | JSVal.undef => true | _ => false
  | "ne" => match v with | JSVal.undef => false | _ => true
  | "in" =>
      match v with
      | JSVal.arr xs => xs.any (fun x => match x with | JSVal.undef => true | _ => false)
      | _ => false
  | "contains" => charsContains "undefined".toList (jsToString v).toList
  | _ => false

/-- Spec-side cap-then-floor composition: clamp down to `cap` when the
result exceeds it, then raise to `minA` when the (possibly capped)
result is below it — cap first, floor second. -/
def capThenFloorSpec (cap minA : Option Dec) (r : Dec) : Dec :=
  let capped :=
    match cap with
    | some c => if r.gt c then c else r
    | none => r
  match minA with
  | some m => if capped.lt m then m else capped
  | none => capped

/-! ## Concrete fixtures used by counterexamples and witnesses -/

/-- A one-touchpoint REFERRAL attribution event (weights uncomputed on
input). -/
def referralEvent1 : AttributionEvent :=
  ⟨"ev-ref-1", "tenant-1", "sale-1", "aff-1", ["aff-1"], AttributionType.REFERRAL,
    Dec.ofInt 0, [⟨"aff-1", 0, "whatsapp", Dec.ofInt 0⟩], 0⟩

/-- A three-touchpoint LINEAR attribution event (weights uncomputed on
input). -/
def linearEvent3 : AttributionEvent :=
  ⟨"ev-lin-3", "tenant-1", "sale-2", "aff-1", ["aff-1", "aff-2", "aff-3"],
    AttributionType.LINEAR, Dec.ofInt 0,
    [⟨"aff-1", 0, "email", Dec.ofInt 0⟩, ⟨"aff-2", 1, "social", Dec.ofInt 0⟩,
     ⟨"aff-3", 2, "direct", Dec.ofInt 0⟩], 0⟩

/-- The spec's tiered rule: tiers 1000→10%, 5000→15%, 10000→20%, base
rate 5%, no cap/floor, no conditions. -/
def tieredRuleC3 : RevenueSharingRule :=
  ⟨"rule-t", "tiered", RevenueModelType.TIERED, Dec.ofInt 5, [],
    [⟨Dec.ofInt 1000, Dec.ofInt 10⟩, ⟨Dec.ofInt 5000, Dec.ofInt 15⟩,
     ⟨Dec.ofInt 10000, Dec.ofInt 20⟩], [], none, none⟩

/-- Two active abuse rules: clickRate > 100 at risk HIGH, selfRate > 10
at risk CRITICAL (both with configured action FLAG). -/
def abuseRulesC4 : List AbuseDetectionRule :=
  [⟨"rule-high", "tenant-1", "click fraud", AbuseType.CLICK_FRAUD,
     [⟨"clickRate", "gt", JSVal.num 100, none⟩], AbuseRiskLevel.HIGH, AbuseAction.FLAG, true⟩,
   ⟨"rule-crit", "tenant-1", "self dealing", AbuseType.SELF_DEALING,
     [⟨"selfRate", "gt", JSVal.num 10, none⟩], AbuseRiskLevel.CRITICAL, AbuseAction.FLAG, true⟩]

/-- The spec's pricing configuration: base 1000; −15% for quantity ≥
100 (priority 1), −5% for gold tier (priority 2), −10 absolute for a
promo (priority 3); stored out of priority order. -/
def pricingConfigC5 : PricingConfiguration :=
  ⟨"cfg-1", "tenant-1", Dec.ofInt 1000,
    [⟨"rule-promo", "promo", [⟨"promo", "eq", JSVal.bool true⟩], Dec.ofInt (-10), "ABSOLUTE", 3⟩,
     ⟨"rule-qty", "volume", [⟨"quantity", "gte", JSVal.num 100⟩], Dec.ofInt (-15), "PERCENTAGE", 1⟩,
     ⟨"rule-gold", "gold", [⟨"tier", "eq", JSVal.str "gold"⟩], Dec.ofInt (-5), "PERCENTAGE", 2⟩],
    []⟩

/-- The matching pricing context for `pricingConfigC5`. -/
def pricingCtxC5 : Ctx :=
  [("quantity", JSVal.num 150), ("tier", JSVal.str "gold"), ("promo", JSVal.bool true)]

/-- A pricing configuration whose override for product "prod-1" (window
[0, 100]) coexists with an unconditional −50% rule. -/
def overrideConfigC5 : PricingConfiguration :=
  ⟨"cfg-2", "tenant-1", Dec.ofInt 1000,
    [⟨"rule-half", "half", [], Dec.ofInt (-50), "PERCENTAGE", 1⟩],
    [⟨"ov-1", "prod-1", Dec.ofInt 77, 0, some 100⟩]⟩

/-- A percentage rule at 20% capped at 500. -/
def capRuleC6 : RevenueSharingRule :=
  ⟨"rule-cap", "capped", RevenueModelType.PERCENTAGE, Dec.ofInt 20, [], [], [],
    some (Dec.ofInt 500), none⟩

/-- A percentage rule at 5% with floor 100. -/
def minRuleC6 : RevenueSharingRule :=
  ⟨"rule-min", "floored", RevenueModelType.PERCENTAGE, Dec.ofInt 5, [], [], [],
    none, some (Dec.ofInt 100)⟩

/-- A 10% percentage rule gated on region = "EU". -/
def condRuleC7 : RevenueSharingRule :=
  ⟨"rule-cond", "conditional", RevenueModelType.PERCENTAGE, Dec.ofInt 10,
    [⟨"region", "eq", JSVal.str "EU"⟩], [], [], none, none⟩

/-- A flat-rate-50 rule gated on region = "EU". -/
def condRuleC9 : RevenueSharingRule :=
  ⟨"rule-flat", "flat conditional", RevenueModelType.FLAT_RATE, Dec.ofInt 50,
    [⟨"region", "eq", JSVal.str "EU"⟩], [], [], none, none⟩

/-- An alert store holding one already-RESOLVED alert under id
"alert-1". -/
def alertStoreC10 : List (String × AbuseAlert) :=
  [("alert-1",
    ⟨"alert-1", JSVal.str "tenant-1", "aff-1", JSVal.undef, AbuseType.CLICK_FRAUD,
      AbuseRiskLevel.HIGH, ["rule-high"], [], AbuseAction.HOLD, "RESOLVED", 0, 0, some 0⟩)]

/-! ## Helper lemmas -/

theorem numLt_right_none (x : Option ℚ) : numLt x none = false := by
  cases x <;> rfl

theorem numLe_right_none (x : Option ℚ) : numLe x none = false := by
  cases x <;> rfl

theorem jsEq_undef_left (v : JSVal) :
    jsEq JSVal.undef v = (match v with | JSVal.undef => true | _ => false) := by
  cases v <;> rfl

theorem any_jsEq_undef (xs : List JSVal) :
    xs.any (fun x => jsEq x JSVal.undef)
      = xs.any (fun x => match x with | JSVal.undef => true | _ => false) := by
  induction xs with
  | nil => rfl
  | cons x xs ih =>
      simp only [List.any_cons, ih]
      cases x <;> rfl

theorem foldl_guard_filter {α β : Type _} (P : α → Bool) (f : β → α → β) :
    ∀ (l : List α) (b : β),
      l.foldl (fun acc x => if P x then f acc x else acc) b = (l.filter P).foldl f b := by
  intro l
  induction l with
  | nil => intro b; rfl
  | cons x xs ih =>
      intro b
      cases hP : P x <;> simp [List.filter_cons, hP, ih]

theorem foldl_replace_getLast {α β : Type _} (g : α → β) :
    ∀ (l : List α) (b : β),
      l.foldl (fun _ t => g t) b = ((l.getLast?).map g).getD b := by
  intro l
  induction l with
  | nil => intro b; rfl
  | cons x xs ih =>
      intro b
      cases xs with
      | nil => rfl
      | cons y ys =>
          simp only [List.foldl_cons, ih]
          rw [List.getLast?_cons_cons]
          cases hL : (y :: ys).getLast? with
          | none => simp [List.getLast?] at hL
          | some z => rfl

theorem pairwise_rel_getLast {α : Type _} {R : α → α → Prop} :
    ∀ {l : List α}, l.Pairwise R → ∀ z, l.getLast? = some z → ∀ a ∈ l, a = z ∨ R a z := by
  intro l
  induction l with
  | nil => intro _ z hz; simp at hz
  | cons x xs ih =>
      intro hp z hz a ha
      rcases List.pairwise_cons.mp hp with ⟨hx, hxs⟩
      cases xs with
      | nil =>
          simp at hz ha
          subst hz; subst ha; exact Or.inl rfl
      | cons y ys =>
          rw [List.getLast?_cons_cons] at hz
          have hzmem : z ∈ y :: ys := by
            rcases List.mem_getLast?_eq_getLast (l := y :: ys) (x := z)
                (Option.mem_def.mpr hz) with ⟨hne, hzval⟩
            exact hzval ▸ List.getLast_mem hne
          rcases List.mem_cons.mp ha with rfl | hmem
          · exact Or.inr (hx z hzmem)
          · exact ih hxs z hz a hmem

/-! ## Claims -/

/-- Claim C1 (code bug). The claim — and the spec — say that a REFERRAL
attribution over one touchpoint collapses the 0.5-to-first and
0.5-to-last shares onto the single touchpoint, yielding weight 1 and
aggregate weight 1. The code instead assigns the lone touchpoint a
single weight of 0.5 (`idx === 0 || idx === length - 1` sets 0.5 once,
with no collapse handling), so the recomputed aggregate is 0.5, not 1:
this theorem evaluates the embedded code at the failing input. -/
theorem claim_C1_referral_single_touchpoint :
    ((trackAttribution referralEvent1 "uuid-1" 10).touchpoints.map (fun tp => tp.weight.toRat)
        = [Rat.divInt 1 2])
    ∧ (trackAttribution referralEvent1 "uuid-1" 10).attributionWeight.toRat = Rat.divInt 1 2
    ∧ ¬ (trackAttribution referralEvent1 "uuid-1" 10).attributionWeight.toRat = 1 :=
  ⟨by decide, by decide, by decide⟩

/-- Claim C2 (counterexample). The claim says a condition on a missing
context key is false for every operator except `ne` against a defined
value. But `contains` coerces the missing value to the string
"undefined", so a defined comparison value such as "def" — a substring
of "undefined" — makes all three evaluators return true. -/
theorem claim_C2_counterexample :
    ([] : Ctx).lookup "quantity" = none
    ∧ conditionMet ⟨"quantity", "contains", JSVal.str "def"⟩ [] = true
    ∧ ruleMatches
        ⟨"ar-1", "tenant-1", "r", AbuseType.CLICK_FRAUD,
          [⟨"quantity", "contains", JSVal.str "def", none⟩],
          AbuseRiskLevel.LOW, AbuseAction.FLAG, true⟩ [] = true
    ∧ ruleApplies
        ⟨"pr-1", "r", [⟨"quantity", "contains", JSVal.str "def"⟩],
          Dec.ofInt 0, "ABSOLUTE", 0⟩ [] = true :=
  ⟨rfl, by decide, by decide, by decide⟩

/-- Claim C2 (amended). For a condition whose field key is absent from
the context, all three evaluators agree with `missingKeyEval`: the
numeric operators (gt/gte/lt/lte) and unknown operators never hold;
`eq` holds only against `undefined` itself; `ne` holds against any
other value; `in` holds exactly for an array containing `undefined`;
and `contains` holds exactly when the stringified comparison value is a
substring of "undefined" (e.g. "", "def", "undefined"). -/
theorem claim_C2_missing_key_eval (data : Ctx) (f op : String) (v : JSVal)
    (h : data.lookup f = none) :
    (conditionMet ⟨f, op, v⟩ data = missingKeyEval op v)
    ∧ (∀ tw (rule : AbuseDetectionRule), rule.conditions = [⟨f, op, v, tw⟩] →
        ruleMatches rule data = missingKeyEval op v)
    ∧ (∀ rule : PricingRule, rule.conditions = [⟨f, op, v⟩] →
        ruleApplies rule data = missingKeyEval op v) := by
  have hget : ctxGet data f = JSVal.undef := by simp [ctxGet, h]
  refine ⟨?_, ?_, ?_⟩
  · simp only [conditionMet, hget]
    unfold missingKeyEval
    split <;>
      first
        | rfl
        | (cases v <;> rfl)
        | (simp only [jsToNumber, numLt_right_none, numLe_right_none]; rfl)
        | (cases v <;> simp [any_jsEq_undef])
  · intro tw rule hconds
    simp only [ruleMatches, hconds, List.all_cons, List.all_nil, Bool.and_true, hget]
    unfold missingKeyEval
    split <;>
      first
        | rfl
        | (cases v <;> rfl)
        | (simp only [jsToNumber, numLt_right_none, numLe_right_none]; rfl)
        | (cases v <;> simp [any_jsEq_undef])
  · intro rule hconds
    simp only [ruleApplies, hconds, List.all_cons, List.all_nil, Bool.and_true, hget]
    unfold missingKeyEval
    split <;>
      first
        | rfl
        | (cases v <;> rfl)
        | (simp only [jsToNumber, numLt_right_none, numLe_right_none]; rfl)
        | (cases v <;> simp [any_jsEq_undef])

/-- Witness for claim C2's amended theorem at a concrete input: key "b"
is absent from the context `[("a", 1)]`, and for the `lt` operator the
evaluator returns false, as `missingKeyEval` predicts. -/
theorem claim_C2_missing_key_eval_witness :
    conditionMet ⟨"b", "lt", JSVal.num 5⟩ [("a", JSVal.num 1)] = missingKeyEval "lt" (JSVal.num 5) :=
  (claim_C2_missing_key_eval [("a", JSVal.num 1)] "b" "lt" (JSVal.num 5) rfl).1

/-- Claim C3. For a TIERED rule (no cap/floor, evaluated without
context) with a non-empty, ascending-threshold tier list,
`calculateRevenue` yields `amount × rate / 100` where the rate is that
of the last tier whose threshold ≤ amount (falling back to `baseRate`
when none qualifies), and under the ascending order that last
qualifying tier carries the largest qualifying threshold. -/
theorem claim_C3_tiered_selection (rule : RevenueSharingRule) (amount : Dec)
    (hmodel : rule.modelType = RevenueModelType.TIERED)
    (hne : rule.tierLevels ≠ [])
    (hsorted : rule.tierLevels.Pairwise (fun t u => t.threshold.toRat ≤ u.threshold.toRat))
    (hcap : rule.capAmount = none) (hmin : rule.minAmount = none) :
    (calculateRevenue rule amount none =
      (amount.mul
        ((((rule.tierLevels.filter (fun t => amount.ge t.threshold)).getLast?).map
            TierLevel.rate).getD rule.baseRate)).div (Dec.ofInt 100))
    ∧ (∀ z, (rule.tierLevels.filter (fun t => amount.ge t.threshold)).getLast? = some z →
        ∀ t ∈ rule.tierLevels.filter (fun t => amount.ge t.threshold),
          t.threshold.toRat ≤ z.threshold.toRat) := by
  constructor
  · have h1 : calculateRevenue rule amount none = calculateTieredRevenue amount rule := by
      simp [calculateRevenue, conditionsGate, modelRevenue, hmodel, hcap, hmin]
    rw [h1]
    unfold calculateTieredRevenue
    rw [if_neg (by simpa using hne)]
    have hfold := foldl_guard_filter (fun t : TierLevel => amount.ge t.threshold)
      (fun (_ : Dec) t => t.rate) rule.tierLevels rule.baseRate
    have hlast := foldl_replace_getLast (fun t : TierLevel => t.rate)
      (rule.tierLevels.filter (fun t => amount.ge t.threshold)) rule.baseRate
    simp only [hfold, hlast]
  · intro z hz t ht
    have hp2 : (rule.tierLevels.filter (fun t => amount.ge t.threshold)).Pairwise
        (fun t u => t.threshold.toRat ≤ u.threshold.toRat) :=
      List.Pairwise.sublist (List.filter_sublist _) hsorted
    rcases pairwise_rel_getLast hp2 z hz t ht with rfl | hrel
    · exact le_refl _
    · exact hrel

/-- Witness for claim C3 at the spec's example: tiers 1000→10%,
5000→15%, 10000→20% over base 5%; amounts 500, 2000, 7000 and 15000
yield 25, 200, 1050 and 3000 (5%, 10%, 15% and 20% respectively). -/
theorem claim_C3_tiered_selection_witness :
    (calculateRevenue tieredRuleC3 (Dec.ofInt 500) none).toRat = 25
    ∧ (calculateRevenue tieredRuleC3 (Dec.ofInt 2000) none).toRat = 200
    ∧ (calculateRevenue tieredRuleC3 (Dec.ofInt 7000) none).toRat = 1050
    ∧ (calculateRevenue tieredRuleC3 (Dec.ofInt 15000) none).toRat = 3000 := by
  have hsorted : tieredRuleC3.tierLevels.Pairwise
      (fun t u => t.threshold.toRat ≤ u.threshold.toRat) := by
    decide
  have h500 := claim_C3_tiered_selection tieredRuleC3 (Dec.ofInt 500) rfl
    (by simp [tieredRuleC3]) hsorted rfl rfl
  have h2000 := claim_C3_tiered_selection tieredRuleC3 (Dec.ofInt 2000) rfl
    (by simp [tieredRuleC3]) hsorted rfl rfl
  have h7000 := claim_C3_tiered_selection tieredRuleC3 (Dec.ofInt 7000) rfl
    (by simp [tieredRuleC3]) hsorted rfl rfl
  have h15000 := claim_C3_tiered_selection tieredRuleC3 (Dec.ofInt 15000) rfl
    (by simp [tieredRuleC3]) hsorted rfl rfl
  exact ⟨by rw [h500.1]; decide, by rw [h2000.1]; decide,
    by rw [h7000.1]; decide, by rw [h15000.1]; decide⟩

/-- Claim C6. Whenever the condition gate passes, `calculateRevenue`
returns the raw model result clamped by the cap first and the floor
second, exactly as `capThenFloorSpec` composes them. -/
theorem claim_C6_cap_before_floor (rule : RevenueSharingRule) (amount : Dec)
    (context : Option Ctx) (hgate : conditionsGate rule context = true) :
    calculateRevenue rule amount context =
      capThenFloorSpec rule.capAmount rule.minAmount (modelRevenue rule amount context) := by
  unfold calculateRevenue capThenFloorSpec
  rw [hgate]
  cases rule.capAmount <;> cases rule.minAmount <;> simp

/-- Witness for claim C6 at the spec's examples: 20% of 10000 capped at
500 gives 500 (not 2000); 5% of 100 floored at 100 gives 100 (not 5). -/
theorem claim_C6_cap_before_floor_witness :
    (calculateRevenue capRuleC6 (Dec.ofInt 10000) none).toRat = 500
    ∧ (calculateRevenue minRuleC6 (Dec.ofInt 100) none).toRat = 100 := by
  have h1 := claim_C6_cap_before_floor capRuleC6 (Dec.ofInt 10000) none rfl
  have h2 := claim_C6_cap_before_floor minRuleC6 (Dec.ofInt 100) none rfl
  exact ⟨by rw [h1]; decide, by rw [h2]; decide⟩

/-- Claim C7. A rule with a non-empty condition list whose conditions
are not all satisfied against a supplied context yields exactly zero
revenue — a normal result of the total function, not an error. -/
theorem claim_C7_unmatched_conditions_zero (rule : RevenueSharingRule) (amount : Dec)
    (ctx : Ctx) (hne : rule.conditions ≠ [])
    (hnot : ¬ ∀ c ∈ rule.conditions, conditionMet c ctx = true) :
    calculateRevenue rule amount (some ctx) = Dec.ofInt 0
    ∧ (calculateRevenue rule amount (some ctx)).toRat = 0 := by
  have hgate : conditionsGate rule (some ctx) = false := by
    simp only [conditionsGate]
    rw [if_pos (List.length_pos.mpr hne)]
    cases hall : rule.conditions.all (fun cond => conditionMet cond ctx) with
    | false => rfl
    | true => exact absurd (fun c hc => List.all_eq_true.mp hall c hc) hnot
  have hz : calculateRevenue rule amount (some ctx) = Dec.ofInt 0 := by
    unfold calculateRevenue
    rw [hgate]
    rfl
  exact ⟨hz, by rw [hz]; rfl⟩

/-- Witness for claim C7: a 10% rule conditioned on region = "EU"
evaluated against region = "US" returns exactly 0. -/
theorem claim_C7_unmatched_conditions_zero_witness :
    (calculateRevenue condRuleC7 (Dec.ofInt 1000) (some [("region", JSVal.str "US")])).toRat
      = 0 :=
  (claim_C7_unmatched_conditions_zero condRuleC7 (Dec.ofInt 1000) [("region", JSVal.str "US")]
    (by simp [condRuleC7])
    (fun hall => absurd
      (hall ⟨"region", "eq", JSVal.str "EU"⟩ (by simp [condRuleC7]))
      (by decide))).2

/-- Claim C9. Calling `calculateRevenue` without a context skips the
condition check entirely: even a rule with a non-empty condition list
yields its full (cap/floor-clamped) model result, and behaves exactly
as the same rule with its conditions erased. -/
theorem claim_C9_no_context_skips_conditions (rule : RevenueSharingRule) (amount : Dec)
    (hne : rule.conditions ≠ []) :
    calculateRevenue rule amount none =
      capThenFloorSpec rule.capAmount rule.minAmount (modelRevenue rule amount none)
    ∧ calculateRevenue rule amount none =
      calculateRevenue { rule with conditions := [] } amount none := by
  constructor
  · unfold calculateRevenue capThenFloorSpec
    cases rule.capAmount <;> cases rule.minAmount <;> simp [conditionsGate]
  · rfl

/-- Witness for claim C9: a FLAT_RATE-50 rule conditioned on region =
"EU", called without context, returns the full flat rate 50 rather than
0. -/
theorem claim_C9_no_context_skips_conditions_witness :
    (calculateRevenue condRuleC9 (Dec.ofInt 100) none).toRat = 50
    ∧ condRuleC9.conditions ≠ [] := by
  have h := claim_C9_no_context_skips_conditions condRuleC9 (Dec.ofInt 100)
    (by simp [condRuleC9])
  exact ⟨by rw [h.1]; decide, by simp [condRuleC9]⟩

/-- Reading back the weights of a list of touchpoints whose weights
were all overwritten with `w`. -/
theorem map_weight_update (w : Dec) :
    ∀ xs : List Touchpoint,
      (xs.map (fun tp => { tp with weight := w })).map (fun tp => tp.weight)
        = xs.map (fun _ => w) := by
  intro xs
  induction xs with
  | nil => rfl
  | cons x xs ih => simp [ih]

/-- Claim C8 (counterexample). The claim says LINEAR attribution over
N = 3 touchpoints assigns each touchpoint exactly 1/3 and that the
recomputed aggregate weight is exactly 1. With `decimal.js` default
20-significant-digit precision, `1.dividedBy(3)` rounds to
0.33333333333333333333, so the weights are not exactly 1/3 and the
aggregate is 0.99999999999999999999, not 1. -/
theorem claim_C8_counterexample :
    ((trackAttribution linearEvent3 "uuid-3" 0).touchpoints.map (fun tp => tp.weight.toRat)
        ≠ [Rat.divInt 1 3, Rat.divInt 1 3, Rat.divInt 1 3])
    ∧ ¬ (trackAttribution linearEvent3 "uuid-3" 0).attributionWeight.toRat = 1 :=
  ⟨by decide, by decide⟩

/-- Claim C8 (amended). LINEAR attribution gives every touchpoint the
weight `1.dividedBy(N)` — 1/N rounded to 20 significant digits — and
the recomputed aggregate is the decimal sum of those weights, which can
fall short of 1: for the three-touchpoint event each weight is exactly
0.33333333333333333333 and the aggregate is exactly
0.99999999999999999999 (for N with an exactly representable 1/N, e.g.
N = 4, the aggregate is exactly 1). -/
theorem claim_C8_linear_weights (tps : List Touchpoint) :
    ((calculateWeights tps AttributionType.LINEAR).map (fun tp => tp.weight)
      = tps.map (fun _ => (Dec.ofInt 1).div (Dec.ofInt tps.length)))
    ∧ ((trackAttribution linearEvent3 "uuid-3" 0).touchpoints.map (fun tp => tp.weight.toRat)
        = [Rat.divInt 33333333333333333333 100000000000000000000,
           Rat.divInt 33333333333333333333 100000000000000000000,
           Rat.divInt 33333333333333333333 100000000000000000000])
    ∧ (trackAttribution linearEvent3 "uuid-3" 0).attributionWeight.toRat
        = Rat.divInt 99999999999999999999 100000000000000000000
    ∧ ((trackAttribution
          { linearEvent3 with
              touchpoints := linearEvent3.touchpoints ++ [⟨"aff-4", 3, "direct", Dec.ofInt 0⟩] }
          "uuid-4" 0).attributionWeight.toRat = 1) := by
  refine ⟨?_, by decide, by decide, by decide⟩
  cases tps with
  | nil => rfl
  | cons x xs => exact map_weight_update _ (x :: xs)

/-- Claim C5. `calculatePrice` returns the first time-valid,
product-matching override's price untouched by any rule; with no active
override it folds the base price through exactly the rules whose
conditions are satisfied, in ascending priority order, ABSOLUTE adding
and PERCENTAGE multiplying the running price; sequential composition on
the already-adjusted price makes the spec's example
1000 × 0.85 × 0.95 − 10 = 797.5, and an active override ignores all
rules. -/
theorem claim_C5_price_composition (config : PricingConfiguration) (context : Ctx) (now : ℤ) :
    (∀ o, config.overrides.find? (fun o => overrideActive o context now) = some o →
        calculatePrice config context now = o.price)
    ∧ (config.overrides.find? (fun o => overrideActive o context now) = none →
        calculatePrice config context now =
          ((sortRulesByPriority config.rules).filter (fun r => ruleApplies r context)).foldl
            applyAdjustment config.basePrice)
    ∧ (calculatePrice pricingConfigC5 pricingCtxC5 0).toRat = Rat.divInt 1595 2
    ∧ (calculatePrice overrideConfigC5 [("productId", JSVal.str "prod-1")] 50).toRat = 77 := by
  refine ⟨?_, ?_, by decide, by decide⟩
  · intro o ho
    simp [calculatePrice, ho]
  · intro hnone
    simp only [calculatePrice, hnone]
    exact foldl_guard_filter (fun r => ruleApplies r context) applyAdjustment _ _

/-- Witness for claim C5 at concrete inputs: the active override of
`overrideConfigC5` short-circuits to 77 even though its −50% rule
matches, and `pricingConfigC5` (no overrides) folds through all three
matching rules. -/
theorem claim_C5_price_composition_witness :
    calculatePrice overrideConfigC5 [("productId", JSVal.str "prod-1")] 50 = Dec.ofInt 77
    ∧ calculatePrice pricingConfigC5 pricingCtxC5 0 =
        ((sortRulesByPriority pricingConfigC5.rules).filter
            (fun r => ruleApplies r pricingCtxC5)).foldl
          applyAdjustment pricingConfigC5.basePrice := by
  constructor
  · exact (claim_C5_price_composition overrideConfigC5
      [("productId", JSVal.str "prod-1")] 50).1
      ⟨"ov-1", "prod-1", Dec.ofInt 77, 0, some 100⟩ (by decide)
  · exact (claim_C5_price_composition pricingConfigC5 pricingCtxC5 0).2.1 (by decide)

/-- The detected-rule ids accumulated by the `detectAbuse` scan are the
starting accumulator followed by the ids of the matching rules, in
order. -/
theorem detectScan_fst (context : Ctx) :
    ∀ (l : List AbuseDetectionRule) (acc : List String) (m : AbuseRiskLevel),
      (l.foldl (detectScanStep context) (acc, m)).1
        = acc ++ (l.filter (fun r => ruleMatches r context)).map (fun r => r.id) := by
  intro l
  induction l with
  | nil => intro acc m; simp
  | cons x xs ih =>
      intro acc m
      rw [List.foldl_cons]
      cases hx : ruleMatches x context with
      | true => simp [detectScanStep, hx, ih, List.filter_cons]
      | false => simp [detectScanStep, hx, ih, List.filter_cons]

/-- The running maximum risk level of the `detectAbuse` scan never
drops below its starting value. -/
theorem detectScan_snd_ge_start (context : Ctx) :
    ∀ (l : List AbuseDetectionRule) (acc : List String) (m : AbuseRiskLevel),
      getRiskLevelValue m
        ≤ getRiskLevelValue (l.foldl (detectScanStep context) (acc, m)).2 := by
  intro l
  induction l with
  | nil => intro acc m; exact le_refl _
  | cons x xs ih =>
      intro acc m
      rw [List.foldl_cons]
      cases hx : ruleMatches x context with
      | false => simpa [detectScanStep, hx] using ih acc m
      | true =>
          simp only [detectScanStep, hx, if_true]
          by_cases hgt : getRiskLevelValue x.riskLevel > getRiskLevelValue m
          · rw [if_pos hgt]
            exact le_trans (le_of_lt hgt) (ih _ _)
          · rw [if_neg hgt]
            exact ih _ _

/-- The final maximum risk level of the `detectAbuse` scan dominates
every matching rule's risk level. -/
theorem detectScan_snd_ge_matched (context : Ctx) :
    ∀ (l : List AbuseDetectionRule) (acc : List String) (m : AbuseRiskLevel)
      (r : AbuseDetectionRule), r ∈ l → ruleMatches r context = true →
      getRiskLevelValue r.riskLevel
        ≤ getRiskLevelValue (l.foldl (detectScanStep context) (acc, m)).2 := by
  intro l
  induction l with
  | nil => intro acc m r hr; cases hr
  | cons x xs ih =>
      intro acc m r hr hmat
      rw [List.foldl_cons]
      rcases List.mem_cons.mp hr with rfl | hmem
      · simp only [detectScanStep, hmat, if_true]
        by_cases hgt : getRiskLevelValue r.riskLevel > getRiskLevelValue m
        · rw [if_pos hgt]
          exact detectScan_snd_ge_start context xs _ _
        · rw [if_neg hgt]
          exact le_trans (not_lt.mp hgt) (detectScan_snd_ge_start context xs _ _)
      · cases hx : ruleMatches x context with
        | true =>
            simp only [detectScanStep, hx, if_true]
            exact ih _ _ r hmem hmat
        | false =>
            simpa [detectScanStep, hx] using ih acc m r hmem hmat

/-- The final maximum risk level of the `detectAbuse` scan is either
the starting value or the risk level of some matching rule. -/
theorem detectScan_snd_mem (context : Ctx) :
    ∀ (l : List AbuseDetectionRule) (acc : List String) (m : AbuseRiskLevel),
      (l.foldl (detectScanStep context) (acc, m)).2 = m
      ∨ (l.foldl (detectScanStep context) (acc, m)).2
          ∈ (l.filter (fun r => ruleMatches r context)).map (fun r => r.riskLevel) := by
  intro l
  induction l with
  | nil => intro acc m; exact Or.inl rfl
  | cons x xs ih =>
      intro acc m
      rw [List.foldl_cons, List.filter_cons]
      cases hx : ruleMatches x context with
      | false =>
          rw [if_neg (by simp [hx])]
          simpa [detectScanStep, hx] using ih acc m
      | true =>
          rw [if_pos (by simp [hx])]
          simp only [detectScanStep, hx, if_true, List.map_cons]
          by_cases hgt : getRiskLevelValue x.riskLevel > getRiskLevelValue m
          · rw [if_pos hgt]
            rcases ih (acc ++ [x.id]) x.riskLevel with h | h
            · refine Or.inr ?_
              rw [h]
              exact List.mem_cons_self _ _
            · exact Or.inr (List.mem_cons_of_mem _ h)
          · rw [if_neg hgt]
            rcases ih (acc ++ [x.id]) m with h | h
            · exact Or.inl h
            · exact Or.inr (List.mem_cons_of_mem _ h)

/-- Claim C4. `detectAbuse` produces no alert exactly when no active
rule matches (inactive rules are never considered); when an alert is
produced, its detected-rule list is the ids of all matching active
rules, its status is OPEN, its risk level is the maximum risk level
among the matching active rules (it dominates each of them and is one
of them), and its action is derived solely from that aggregate risk
level — HIGH→HOLD, CRITICAL→SUSPEND, anything lower→FLAG — regardless
of the per-rule configured actions. -/
theorem claim_C4_detect_abuse (rules : List AbuseDetectionRule) (affiliateId : String)
    (context : Ctx) (newId : String) (now : ℤ) :
    ((detectAbuse rules affiliateId context newId now).isNone = true ↔
      ∀ r ∈ rules, r.isActive = true → ruleMatches r context = false)
    ∧ (∀ alert, detectAbuse rules affiliateId context newId now = some alert →
        alert.detectedRules =
          ((rules.filter (fun r => r.isActive)).filter (fun r => ruleMatches r context)).map
            (fun r => r.id)
        ∧ alert.status = "OPEN"
        ∧ (∀ r ∈ rules, r.isActive = true → ruleMatches r context = true →
            getRiskLevelValue r.riskLevel ≤ getRiskLevelValue alert.riskLevel)
        ∧ alert.riskLevel ∈
            ((rules.filter (fun r => r.isActive)).filter (fun r => ruleMatches r context)).map
              (fun r => r.riskLevel)
        ∧ alert.action =
            (if alert.riskLevel = AbuseRiskLevel.HIGH then AbuseAction.HOLD
             else if alert.riskLevel = AbuseRiskLevel.CRITICAL then AbuseAction.SUSPEND
             else AbuseAction.FLAG)) := by
  have hscan1 := detectScan_fst context (rules.filter (fun r => r.isActive)) []
    AbuseRiskLevel.LOW
  have hkey : ((rules.filter (fun r => r.isActive)).foldl (detectScanStep context)
        ([], AbuseRiskLevel.LOW)).1.length = 0
      ↔ ∀ r ∈ rules, r.isActive = true → ruleMatches r context = false := by
    rw [hscan1]
    simp only [List.nil_append, List.length_eq_zero, List.map_eq_nil_iff, List.filter_eq_nil_iff]
    constructor
    · intro h r hr hact
      have := h r (List.mem_filter.mpr ⟨hr, by simp [hact]⟩)
      simpa using this
    · intro h a ha
      have hmem := List.mem_filter.mp ha
      simpa using h a hmem.1 (by simpa using hmem.2)
  constructor
  · simp only [detectAbuse]
    split
    · rename_i hcond
      exact iff_of_true rfl (hkey.mp hcond)
    · rename_i hcond
      exact iff_of_false (by simp) (fun hP => hcond (hkey.mpr hP))
  · intro alert halert
    simp only [detectAbuse] at halert
    split at halert
    · cases halert
    · rename_i hcond
      injection halert with halert
      subst halert
      refine ⟨by simpa using hscan1, rfl, ?_, ?_, rfl⟩
      · intro r hr hact hmat
        exact detectScan_snd_ge_matched context _ [] AbuseRiskLevel.LOW r
          (List.mem_filter.mpr ⟨hr, by simp [hact]⟩) hmat
      · rcases detectScan_snd_mem context (rules.filter (fun r => r.isActive)) []
            AbuseRiskLevel.LOW with h | h
        · rw [h]
          have hne : ((rules.filter (fun r => r.isActive)).filter
              (fun r => ruleMatches r context)) ≠ [] := by
            intro hnil
            apply hcond
            rw [hscan1, hnil]
            simp
          obtain ⟨r0, hr0⟩ := List.exists_mem_of_ne_nil _ hne
          have hr0m := List.mem_filter.mp hr0
          have h1 : getRiskLevelValue r0.riskLevel ≤ 1 := by
            have hle := detectScan_snd_ge_matched context
              (rules.filter (fun r => r.isActive)) [] AbuseRiskLevel.LOW r0 hr0m.1
              (by simpa using hr0m.2)
            rw [h] at hle
            exact hle
          have hr0low : r0.riskLevel = AbuseRiskLevel.LOW := by
            cases hrl : r0.riskLevel <;> simp [getRiskLevelValue, hrl] at h1 <;> rfl
          exact List.mem_map.mpr ⟨r0, hr0, hr0low⟩
        · exact h

/-- Witness for claim C4: with a HIGH clickRate rule and a CRITICAL
selfRate rule both matching, the alert's risk level is CRITICAL, its
action is SUSPEND (overriding both rules' configured FLAG), and both
rule ids are detected. -/
theorem claim_C4_detect_abuse_witness :
    ∃ alert, detectAbuse abuseRulesC4 "aff-1"
        [("clickRate", JSVal.num 150), ("selfRate", JSVal.num 50)] "alert-9" 0 = some alert
      ∧ alert.detectedRules = ["rule-high", "rule-crit"]
      ∧ alert.riskLevel = AbuseRiskLevel.CRITICAL
      ∧ alert.action = AbuseAction.SUSPEND := by
  obtain ⟨alert, halert⟩ : ∃ a, detectAbuse abuseRulesC4 "aff-1"
      [("clickRate", JSVal.num 150), ("selfRate", JSVal.num 50)] "alert-9" 0 = some a := by
    cases hd : detectAbuse abuseRulesC4 "aff-1"
        [("clickRate", JSVal.num 150), ("selfRate", JSVal.num 50)] "alert-9" 0 with
    | some a => exact ⟨a, rfl⟩
    | none =>
        have : (detectAbuse abuseRulesC4 "aff-1"
            [("clickRate", JSVal.num 150), ("selfRate", JSVal.num 50)] "alert-9" 0).isNone
            = false := by decide
        rw [hd] at this
        cases this
  have hc := (claim_C4_detect_abuse abuseRulesC4 "aff-1"
    [("clickRate", JSVal.num 150), ("selfRate", JSVal.num 50)] "alert-9" 0).2 alert halert
  have hlist : ((abuseRulesC4.filter (fun r => r.isActive)).filter
      (fun r => ruleMatches r [("clickRate", JSVal.num 150), ("selfRate", JSVal.num 50)])).map
        (fun r => r.riskLevel) = [AbuseRiskLevel.HIGH, AbuseRiskLevel.CRITICAL] := by decide
  have hids : ((abuseRulesC4.filter (fun r => r.isActive)).filter
      (fun r => ruleMatches r [("clickRate", JSVal.num 150), ("selfRate", JSVal.num 50)])).map
        (fun r => r.id) = ["rule-high", "rule-crit"] := by decide
  have hcrit : alert.riskLevel = AbuseRiskLevel.CRITICAL := by
    have hmem := hc.2.2.2.1
    rw [hlist] at hmem
    have hge : getRiskLevelValue AbuseRiskLevel.CRITICAL
        ≤ getRiskLevelValue alert.riskLevel := by
      apply hc.2.2.1 (abuseRulesC4.get ⟨1, by simp [abuseRulesC4]⟩)
      · simp [abuseRulesC4]
      · decide
      · decide
    rcases List.mem_cons.mp hmem with h | h
    · rw [h] at hge
      simp [getRiskLevelValue] at hge
    · simpa using h
  refine ⟨alert, halert, ?_, hcrit, ?_⟩
  · rw [hc.1, hids]
  · rw [hc.2.2.2.2, hcrit]
    decide

/-- Looking up the updated key after the entry rewrite performed by
`resolveAlert`. -/
theorem lookup_map_update (alertId : String) (b : AbuseAlert) :
    ∀ (alerts : List (String × AbuseAlert)) (a : AbuseAlert),
      alerts.lookup alertId = some a →
      (alerts.map (fun kv => if kv.1 = alertId then (kv.1, b) else kv)).lookup alertId
        = some b := by
  intro alerts
  induction alerts with
  | nil => intro a h; cases h
  | cons kv rest ih =>
      intro a h
      obtain ⟨k, v⟩ := kv
      by_cases hk : k = alertId
      · subst hk
        rw [List.map_cons, if_pos rfl]
        simp [List.lookup]
      · have hbeq : (alertId == k) = false := by
          rw [beq_eq_false_iff_ne]
          exact fun e => hk e.symm
        rw [List.map_cons]
        rw [if_neg (by simpa using hk)]
        simp only [List.lookup, hbeq] at h ⊢
        exact ih a h

/-- Claim C10. `resolveAlert` fails exactly when the alert id is
unknown; for any stored alert — whatever its current status, including
RESOLVED — it succeeds, unconditionally setting status RESOLVED and
stamping `updatedAt`/`resolvedAt` with "now" while leaving every other
field unchanged; and the resolution note is never stored, so the result
does not depend on it. -/
theorem claim_C10_resolve_alert (alerts : List (String × AbuseAlert)) (alertId : String)
    (resolution : String) (now : ℤ) :
    ((∃ e, resolveAlert alerts alertId resolution now = Except.error e) ↔
      alerts.lookup alertId = none)
    ∧ (∀ resolution2, resolveAlert alerts alertId resolution now
        = resolveAlert alerts alertId resolution2 now)
    ∧ (∀ a, alerts.lookup alertId = some a →
        ∃ updated, resolveAlert alerts alertId resolution now = Except.ok updated
          ∧ updated.lookup alertId = some
              { a with status := "RESOLVED", updatedAt := now, resolvedAt := some now }) := by
  refine ⟨⟨?_, ?_⟩, ?_, ?_⟩
  · rintro ⟨e, he⟩
    cases hl : alerts.lookup alertId with
    | none => rfl
    | some a =>
        unfold resolveAlert at he
        rw [hl] at he
        cases he
  · intro hl
    refine ⟨"Alert " ++ alertId ++ " not found", ?_⟩
    unfold resolveAlert
    rw [hl]
  · intro resolution2
    rfl
  · intro a hl
    refine ⟨alerts.map (fun kv => if kv.1 = alertId then
        (kv.1, { a with status := "RESOLVED", updatedAt := now, resolvedAt := some now })
      else kv), ?_, ?_⟩
    · unfold resolveAlert
      rw [hl]
    · exact lookup_map_update alertId _ alerts a hl

/-- Witness for claim C10: on a store holding one already-RESOLVED
alert, resolving it again succeeds and re-stamps the resolution fields,
and resolving an unknown id fails. -/
theorem claim_C10_resolve_alert_witness :
    (∃ updated, resolveAlert alertStoreC10 "alert-1" "looks fine" 99 = Except.ok updated
        ∧ updated.lookup "alert-1" = some
            ⟨"alert-1", JSVal.str "tenant-1", "aff-1", JSVal.undef, AbuseType.CLICK_FRAUD,
              AbuseRiskLevel.HIGH, ["rule-high"], [], AbuseAction.HOLD, "RESOLVED", 0, 99,
              some 99⟩)
    ∧ (∃ e, resolveAlert alertStoreC10 "alert-9" "note" 99 = Except.error e)
    ∧ resolveAlert alertStoreC10 "alert-1" "looks fine" 99
        = resolveAlert alertStoreC10 "alert-1" "another note" 99 := by
  refine ⟨?_, ?_, ?_⟩
  · exact (claim_C10_resolve_alert alertStoreC10 "alert-1" "looks fine" 99).2.2 _ rfl
  · exact (claim_C10_resolve_alert alertStoreC10 "alert-9" "note" 99).1.mpr rfl
  · exact (claim_C10_resolve_alert alertStoreC10 "alert-1" "looks fine" 99).2.1 "another note"

end MLAS
